import Mathlib

/-!
A shallow embedding of the URL-shortening handler of `src/api/routes/shorten.go`
(package `routes` of the TinyGo repository) and proofs about it.

Modelling conventions:
* The redis store is an association list from keys to pairs (value, ttl), with
  ttl kept in nanoseconds (Go `time.Duration` units).  `lookupK`, `setK`,
  `decrK`, `expireK`, `removeK`, `ttlK` model the redis GET / SET / DECR /
  EXPIRE / key-expiry / TTL operations used by the handler.
* Counter values are stored as decimal strings, exactly as go-redis serialises
  integer arguments; `goItoa` / `goAtoi` model that serialisation and Go's
  `strconv.Atoi`.
* Go `time.Duration` arithmetic is modelled on `Int` (the values involved are
  far below the `int64` range): `timeSecond`, `timeMinute`, `timeNanosecond`
  are the Go constants in nanoseconds.
* Every redis call of the handler can fail with a communication error in Go;
  the `Faults` record says, per call site, whether that call errors.  The
  success behaviour is the deterministic store semantics.
* The external collaborators `govalidator.IsURL`, `helpers.RemoveDomainError`
  and `helpers.EnforceHTTP` are pure functions passed as parameters, and the
  environment values `API_QUOTA` / `DOMAIN`, the caller address `c.IP()` and
  the random uuid string are parameters as well.  Go's byte slicing
  `uuid.New().String()[:6]` is modelled as taking the first 6 characters (the
  uuid string is ASCII).
* Each call emits a trace of events (`Ev`) recording the order in which the
  handler performs validation, lookups, rate limiting and the final write.
-/

namespace TinyGo

/-- Decimal digit character, `'0'` through `'9'`. -/
def digitChar (d : Nat) : Char := Char.ofNat (48 + d)

/-- The value of a decimal digit character, `none` on a non-digit. -/
def digitVal (c : Char) : Option Nat :=
  if 48 ≤ c.toNat ∧ c.toNat ≤ 57 then some (c.toNat - 48) else none

/-- Decimal digits of `n`, least significant first, with enough fuel
(structural recursion so that evaluation reduces in the kernel). -/
def natToRevDigitsAux : Nat → Nat → List Char
  | 0, n => [digitChar n]
  | fuel + 1, n =>
    if n < 10 then [digitChar n]
    else digitChar (n % 10) :: natToRevDigitsAux fuel (n / 10)

/-- Decimal digits of `n`, least significant first. -/
def natToRevDigits (n : Nat) : List Char := natToRevDigitsAux n n

/-- Parse a run of decimal digits, accumulator style; `none` on a non-digit. -/
def parseDigitsAux : List Char → Nat → Option Nat
  | [], acc => some acc
  | c :: cs, acc =>
    match digitVal c with
    | some d => parseDigitsAux cs (acc * 10 + d)
    | none => none

/-- Parse a non-empty all-digit character list as a natural number. -/
def parseNat (cs : List Char) : Option Nat :=
  match cs with
  | [] => none
  | _ :: _ => parseDigitsAux cs 0

/-- Decimal rendering of an integer, as go-redis serialises an `int` argument. -/
def goItoa (n : Int) : String :=
  if n < 0 then String.mk ('-' :: (natToRevDigits n.natAbs).reverse)
  else String.mk (natToRevDigits n.toNat).reverse

/-- Go's `strconv.Atoi`: optional sign followed by decimal digits. -/
def goAtoi (s : String) : Option Int :=
  match s.data with
  | [] => none
  | c :: cs =>
    if c = '-' then (parseNat cs).map (fun m : Nat => -(m : Int))
    else if c = '+' then (parseNat cs).map (fun m : Nat => (m : Int))
    else (parseNat (c :: cs)).map (fun m : Nat => (m : Int))

/-- The redis store: keys mapped to (string value, remaining ttl in ns). -/
abbrev Store : Type := List (String × String × Int)

/-- Redis GET (including the ttl of the key, for the TTL command). -/
def lookupK : Store → String → Option (String × Int)
  | [], _ => none
  | (k', v, t) :: rest, k => if k = k' then some (v, t) else lookupK rest k

/-- The string value of a key, with `""` for an absent key: the value part of
Go `r.Get(ctx, id).Result()` when the error is ignored. -/
def lookupVal (s : Store) (k : String) : String :=
  match lookupK s k with
  | some p => p.1
  | none => ""

/-- Redis SET with a ttl: overwrite in place or append a fresh key. -/
def setK : Store → String → String → Int → Store
  | [], k, v, t => [(k, v, t)]
  | (k', v', t') :: rest, k, v, t =>
    if k = k' then (k, v, t) :: rest else (k', v', t') :: setK rest k v t

/-- Redis DECR on an existing integer-valued key (ttl untouched). -/
def decrK : Store → String → Store
  | [], _ => []
  | (k', v', t') :: rest, k =>
    if k = k' then (k', goItoa ((goAtoi v').getD 0 - 1), t') :: rest
    else (k', v', t') :: decrK rest k

/-- Redis EXPIRE: refresh the ttl of an existing key. -/
def expireK : Store → String → Int → Store
  | [], _, _ => []
  | (k', v', t') :: rest, k, t =>
    if k = k' then (k', v', t) :: rest else (k', v', t') :: expireK rest k t

/-- Automatic key expiry: the key vanishes from the store. -/
def removeK : Store → String → Store
  | [], _ => []
  | (k', v', t') :: rest, k =>
    if k = k' then removeK rest k else (k', v', t') :: removeK rest k

/-- Redis TTL of a key (nanoseconds); `-2` (scaled) on an absent key, as redis
reports for a missing key. -/
def ttlK (s : Store) (k : String) : Int :=
  match lookupK s k with
  | some p => p.2
  | none => -2

/-- Go `time.Second` in nanoseconds. -/
def timeSecond : Int := 1000000000

/-- Go `time.Minute` in nanoseconds. -/
def timeMinute : Int := 60000000000

/-- Go `time.Nanosecond` in nanoseconds. -/
def timeNanosecond : Int := 1

/-- Which of the handler's redis calls fail with a communication error. -/
structure Faults where
  getId : Bool
  rlGet : Bool
  rlSet : Bool
  rlDecr : Bool
  rlExpire : Bool
  rlTTL : Bool
  finalSet : Bool
deriving DecidableEq

/-- No redis call fails. -/
def noFaults : Faults := ⟨false, false, false, false, false, false, false⟩

/-- Only the uniqueness-check GET fails. -/
def getIdFault : Faults := ⟨true, false, false, false, false, false, false⟩

/-- Only the rate limiter's GET fails. -/
def rlGetFault : Faults := ⟨false, true, false, false, false, false, false⟩

/-- Only the final mapping SET fails. -/
def finalSetFault : Faults := ⟨false, false, false, false, false, false, true⟩

/-- The error kinds `handleRateLimit` can return: the rate-limit-exceeded
business error, a store communication error, a `strconv.Atoi` failure. -/
inductive RLErrKind
  | rateLimited
  | storeFault
  | parseFault
deriving DecidableEq

/-- Result of `handleRateLimit`: Go's `(int, time.Duration, error)` with the
error cases distinguished. `ok remaining exp` is a nil error; `err k exp`
carries the duration the Go code returns alongside the error. -/
inductive RLRes
  | ok (remaining : Int) (exp : Int)
  | err (k : RLErrKind) (exp : Int)
deriving DecidableEq

/-- Trace events: the handler's collaborator and store operations, in the
order they are performed. -/
inductive Ev
  | validateURL
  | domainCheck
  | enforceHTTP
  | genId
  | getId
  | rlGet
  | rlSet
  | rlTTL
  | rlDecr
  | rlExpire
  | writeMapping
deriving DecidableEq

/-- The JSON request body of the handler. -/
structure request where
  URL : String
  CustomShort : String
  Expiry : Int
deriving DecidableEq

/-- The JSON response body of the handler on success. -/
structure response where
  URL : String
  CustomShort : String
  Expiry : Int
  XRateRemaining : Int
  XRateLimitReset : Int
deriving DecidableEq

/-- The observable outcome of one `ShortenURL` call. -/
inductive Outcome
  | invalidURL
  | domainError
  | identifierInUse
  | rateLimitErr (k : RLErrKind) (reset : Int)
  | writeError
  | ok (resp : response)
deriving DecidableEq

/-- The HTTP status the handler attaches to each outcome. -/
def statusOf : Outcome → Nat
  | Outcome.invalidURL => 400
  | Outcome.domainError => 503
  | Outcome.identifierInUse => 403
  | Outcome.rateLimitErr _ _ => 503
  | Outcome.writeError => 500
  | Outcome.ok _ => 200

/-- `handleRateLimit(r, ip, quota)` from `shorten.go`: GET the counter; if the
key is absent, SET it to `quota` with a 30-minute ttl and return the full
quota; if present with value `> 0`, DECR it, refresh its ttl to 30 minutes and
return value − 1; if present with value `≤ 0`, read the key's TTL and fail
rate-limited with it; any store error is returned with a zero duration. -/
def handleRateLimit (s : Store) (f : Faults) (ip : String) (quota : Int) :
    RLRes × Store × List Ev :=
  if f.rlGet then (RLRes.err RLErrKind.storeFault 0, s, [Ev.rlGet])
  else
    match lookupK s ip with
    | none =>
      if f.rlSet then (RLRes.err RLErrKind.storeFault 0, s, [Ev.rlGet, Ev.rlSet])
      else (RLRes.ok quota (30 * timeMinute),
            setK s ip (goItoa quota) (30 * 60 * timeSecond), [Ev.rlGet, Ev.rlSet])
    | some (val, _) =>
      match goAtoi val with
      | none => (RLRes.err RLErrKind.parseFault 0, s, [Ev.rlGet])
      | some remaining =>
        if remaining ≤ 0 then
          if f.rlTTL then (RLRes.err RLErrKind.storeFault 0, s, [Ev.rlGet, Ev.rlTTL])
          else (RLRes.err RLErrKind.rateLimited (ttlK s ip), s, [Ev.rlGet, Ev.rlTTL])
        else
          if f.rlDecr then (RLRes.err RLErrKind.storeFault 0, s, [Ev.rlGet, Ev.rlDecr])
          else
            if f.rlExpire then
              (RLRes.err RLErrKind.storeFault 0, decrK s ip,
               [Ev.rlGet, Ev.rlDecr, Ev.rlExpire])
            else
              (RLRes.ok (remaining - 1) (30 * timeMinute),
               expireK (decrK s ip) ip (30 * 60 * timeSecond),
               [Ev.rlGet, Ev.rlDecr, Ev.rlExpire])

/-- `ShortenURL` from `shorten.go`, after the JSON body has been parsed:
validate the URL, check the domain, enforce https, resolve the identifier
(first 6 characters of a fresh uuid string when no custom short is given),
look the identifier up for uniqueness (the GET's error is discarded, as in the
source), run the rate limiter with the `API_QUOTA` quota (default 100), and
write the mapping with ttl `Expiry * 3600 * time.Second` (default 24). -/
def ShortenURL (isValidURL removeDomainError : String → Bool)
    (enforceHTTP : String → String) (domain apiQuota uuidStr ip : String)
    (f : Faults) (s : Store) (body : request) : Outcome × Store × List Ev :=
  if isValidURL body.URL = false then (Outcome.invalidURL, s, [Ev.validateURL])
  else if removeDomainError body.URL = false then
    (Outcome.domainError, s, [Ev.validateURL, Ev.domainCheck])
  else
    let url := enforceHTTP body.URL
    let id := if body.CustomShort = "" then String.mk (uuidStr.data.take 6)
              else body.CustomShort
    let tr0 := if body.CustomShort = ""
      then [Ev.validateURL, Ev.domainCheck, Ev.enforceHTTP, Ev.genId, Ev.getId]
      else [Ev.validateURL, Ev.domainCheck, Ev.enforceHTTP, Ev.getId]
    let val := if f.getId then "" else lookupVal s id
    if val ≠ "" then (Outcome.identifierInUse, s, tr0)
    else
      let quota := (goAtoi apiQuota).getD 100
      let rl := handleRateLimit s f ip quota
      match rl.1 with
      | RLRes.err k exp =>
        (Outcome.rateLimitErr k (exp / timeSecond / timeMinute), rl.2.1, tr0 ++ rl.2.2)
      | RLRes.ok remaining exp =>
        let expiry := if body.Expiry = 0 then 24 else body.Expiry
        if f.finalSet then (Outcome.writeError, rl.2.1, tr0 ++ rl.2.2 ++ [Ev.writeMapping])
        else
          (Outcome.ok ⟨url, domain ++ "/" ++ id, expiry, remaining,
                       exp / timeNanosecond / timeMinute⟩,
           setK rl.2.1 id url (expiry * 3600 * timeSecond),
           tr0 ++ rl.2.2 ++ [Ev.writeMapping])

/-- The reference order of the handler's operations; every actual trace is a
sublist of this list. -/
def canonicalOrder : List Ev :=
  [Ev.validateURL, Ev.domainCheck, Ev.enforceHTTP, Ev.genId, Ev.getId,
   Ev.rlGet, Ev.rlSet, Ev.rlTTL, Ev.rlDecr, Ev.rlExpire, Ev.writeMapping]

/-- Every value held in the store is non-empty (true of every value this
program writes: https-prefixed URLs and decimal counter strings). -/
def WellFormed (s : Store) : Prop := ∀ k v t, (k, v, t) ∈ s → v ≠ ""

/-- The rate-limit counter of `ip`, when present, is a decimal integer between
0 and the configured quota. -/
def counterInv (ip : String) (quota : Int) (s : Store) : Prop :=
  ∀ v t, lookupK s ip = some (v, t) → ∃ n, v = goItoa n ∧ 0 ≤ n ∧ n ≤ quota

/-- One step of the rate limiter's life for a fixed client: either a
`handleRateLimit` call (with some fault configuration) or the counter key
expiring. -/
inductive RLAct
  | call (f : Faults)
  | windowExpire

/-- Run a sequence of rate-limiter steps against the store. -/
def runRL (ip : String) (quota : Int) : Store → List RLAct → Store
  | s, [] => s
  | s, RLAct.call f :: rest => runRL ip quota (handleRateLimit s f ip quota).2.1 rest
  | s, RLAct.windowExpire :: rest => runRL ip quota (removeK s ip) rest

/-- The concrete quota scenario of the spec: one client (`192.0.2.1`) with
quota 100 makes repeated fault-free registrations of valid URLs, the `i`-th
with distinct custom identifier `c<i>`. -/
def quotaStep (s : Store) (i : Nat) : Outcome × Store × List Ev :=
  ShortenURL (fun _ => true) (fun _ => true) (fun u => u) "sh.rt" "100" "unused"
    "192.0.2.1" noFaults s ⟨"https://example.com", "c" ++ goItoa (i : Int), 0⟩

/-- The store after the first `n` calls of the quota scenario. -/
def quotaStoreAfter : Nat → Store
  | 0 => []
  | n + 1 => (quotaStep (quotaStoreAfter n) (n + 1)).2.1

/-- The outcome of the `n`-th call (1-based) of the quota scenario. -/
def quotaCall (n : Nat) : Outcome := (quotaStep (quotaStoreAfter (n - 1)) n).1

/-! ### Lemmas about the decimal codec -/

theorem digitVal_digitChar (d : Nat) (h : d < 10) : digitVal (digitChar d) = some d := by
  interval_cases d <;> decide

theorem digitChar_ne_minus (d : Nat) (h : d < 10) : digitChar d ≠ '-' := by
  interval_cases d <;> decide

theorem digitChar_ne_plus (d : Nat) (h : d < 10) : digitChar d ≠ '+' := by
  interval_cases d <;> decide

theorem natToRevDigitsAux_ne_nil (fuel n : Nat) : natToRevDigitsAux fuel n ≠ [] := by
  cases fuel with
  | zero => simp [natToRevDigitsAux]
  | succ fuel =>
    simp only [natToRevDigitsAux]
    split <;> simp

theorem mem_natToRevDigitsAux (fuel n : Nat) (h : n ≤ fuel) (c : Char)
    (hc : c ∈ natToRevDigitsAux fuel n) : ∃ d, d < 10 ∧ c = digitChar d := by
  induction fuel generalizing n with
  | zero =>
    have hn : n = 0 := Nat.le_zero.mp h
    subst hn
    simp [natToRevDigitsAux] at hc
    exact ⟨0, by omega, hc⟩
  | succ fuel ih =>
    simp only [natToRevDigitsAux] at hc
    by_cases h10 : n < 10
    · rw [if_pos h10] at hc
      simp at hc
      exact ⟨n, h10, hc⟩
    · rw [if_neg h10] at hc
      rcases List.mem_cons.mp hc with hc | hc
      · exact ⟨n % 10, Nat.mod_lt _ (by omega), hc⟩
      · exact ih (n / 10) (by omega) hc

theorem parseDigitsAux_append (l₁ l₂ : List Char) (acc : Nat) :
    parseDigitsAux (l₁ ++ l₂) acc =
      match parseDigitsAux l₁ acc with
      | some a => parseDigitsAux l₂ a
      | none => none := by
  induction l₁ generalizing acc with
  | nil => rfl
  | cons c cs ih =>
    simp only [List.cons_append, parseDigitsAux]
    cases digitVal c <;> simp [ih]

theorem parse_natToRevDigitsAux (fuel : Nat) : ∀ n acc, n ≤ fuel →
    parseDigitsAux ((natToRevDigitsAux fuel n).reverse) acc =
      some (acc * 10 ^ (natToRevDigitsAux fuel n).length + n) := by
  induction fuel with
  | zero =>
    intro n acc h
    have hn : n = 0 := Nat.le_zero.mp h
    subst hn
    simp [natToRevDigitsAux, parseDigitsAux, digitVal_digitChar 0 (by omega)]
  | succ fuel ih =>
    intro n acc h
    simp only [natToRevDigitsAux]
    by_cases h10 : n < 10
    · rw [if_pos h10]
      simp [parseDigitsAux, digitVal_digitChar n h10]
    · rw [if_neg h10]
      rw [List.reverse_cons, parseDigitsAux_append,
        ih (n / 10) acc (by omega)]
      have hmod : n % 10 < 10 := Nat.mod_lt _ (by omega)
      simp only [parseDigitsAux, digitVal_digitChar (n % 10) hmod,
        List.length_cons, List.length_reverse]
      have key : ∀ p : Nat,
          (p + n / 10) * 10 + n % 10 = p * 10 + n := by
        intro p
        omega
      rw [Option.some.injEq]
      calc (acc * 10 ^ (natToRevDigitsAux fuel (n / 10)).length + n / 10) * 10 + n % 10
          = acc * 10 ^ (natToRevDigitsAux fuel (n / 10)).length * 10 + n :=
            key (acc * 10 ^ (natToRevDigitsAux fuel (n / 10)).length)
        _ = acc * 10 ^ ((natToRevDigitsAux fuel (n / 10)).length + 1) + n := by
            rw [pow_succ, Nat.mul_assoc]

theorem parseNat_natToRevDigits (n : Nat) :
    parseNat ((natToRevDigits n).reverse) = some n := by
  have hne : (natToRevDigits n).reverse ≠ [] := by
    simp [natToRevDigits, natToRevDigitsAux_ne_nil]
  obtain ⟨c, cs, hl⟩ := List.exists_cons_of_ne_nil hne
  rw [hl]
  show parseNat (c :: cs) = some n
  simp only [parseNat]
  rw [← hl]
  have := parse_natToRevDigitsAux n n 0 (Nat.le_refl n)
  simpa [natToRevDigits] using this

theorem head_natToRevDigits_reverse (n : Nat) (c : Char) (cs : List Char)
    (h : (natToRevDigits n).reverse = c :: cs) : ∃ d, d < 10 ∧ c = digitChar d := by
  have hc : c ∈ natToRevDigits n := by
    rw [← List.mem_reverse, h]
    exact List.mem_cons_self c cs
  exact mem_natToRevDigitsAux n n (Nat.le_refl n) c hc

theorem goAtoi_cons (c : Char) (cs : List Char) :
    goAtoi (String.mk (c :: cs)) =
      if c = '-' then (parseNat cs).map (fun m : Nat => -(m : Int))
      else if c = '+' then (parseNat cs).map (fun m : Nat => (m : Int))
      else (parseNat (c :: cs)).map (fun m : Nat => (m : Int)) := rfl

theorem goAtoi_goItoa (n : Int) : goAtoi (goItoa n) = some n := by
  by_cases hneg : n < 0
  · simp only [goItoa, if_pos hneg]
    rw [goAtoi_cons, if_pos rfl, parseNat_natToRevDigits]
    show some (-(n.natAbs : Int)) = some n
    rw [Option.some.injEq]
    omega
  · simp only [goItoa, if_neg hneg]
    have hne : (natToRevDigits n.toNat).reverse ≠ [] := by
      simp [natToRevDigits, natToRevDigitsAux_ne_nil]
    obtain ⟨c, cs, hl⟩ := List.exists_cons_of_ne_nil hne
    rw [hl]
    obtain ⟨d, hd, hcd⟩ := head_natToRevDigits_reverse n.toNat c cs hl
    rw [goAtoi_cons, if_neg (hcd ▸ digitChar_ne_minus d hd),
      if_neg (hcd ▸ digitChar_ne_plus d hd)]
    have hp : parseNat (c :: cs) = some n.toNat := by
      rw [← hl, parseNat_natToRevDigits]
    rw [hp]
    show some ((n.toNat : Int)) = some n
    rw [Option.some.injEq]
    omega

theorem goItoa_data_ne_nil (n : Int) : (goItoa n).data ≠ [] := by
  unfold goItoa
  split <;> simp [natToRevDigits, natToRevDigitsAux_ne_nil]

theorem goItoa_ne_empty (n : Int) : goItoa n ≠ "" := by
  intro h
  apply goItoa_data_ne_nil n
  rw [h]

/-! ### Lemmas about the store operations -/

theorem lookupK_setK_self (s : Store) (k v : String) (t : Int) :
    lookupK (setK s k v t) k = some (v, t) := by
  induction s with
  | nil => simp [setK, lookupK]
  | cons e rest ih =>
    obtain ⟨k', v', t'⟩ := e
    by_cases h : k = k'
    · simp [setK, if_pos h, lookupK]
    · simp [setK, if_neg h, lookupK, ih]

theorem lookupK_setK_ne (s : Store) (k k' v : String) (t : Int) (h : k' ≠ k) :
    lookupK (setK s k v t) k' = lookupK s k' := by
  induction s with
  | nil => simp [setK, lookupK, h]
  | cons e rest ih =>
    obtain ⟨k₀, v₀, t₀⟩ := e
    by_cases hk : k = k₀
    · subst hk
      simp [setK, lookupK, if_neg h, h]
    · by_cases hk' : k' = k₀
      · simp [setK, if_neg hk, lookupK, if_pos hk']
      · simp [setK, if_neg hk, lookupK, if_neg hk', ih]

theorem lookupK_decrK_self (s : Store) (k : String) :
    lookupK (decrK s k) k =
      (lookupK s k).map (fun p => (goItoa ((goAtoi p.1).getD 0 - 1), p.2)) := by
  induction s with
  | nil => simp [decrK, lookupK]
  | cons e rest ih =>
    obtain ⟨k', v', t'⟩ := e
    by_cases h : k = k'
    · simp [decrK, if_pos h, lookupK]
    · simp [decrK, if_neg h, lookupK, if_neg h, ih]

theorem lookupK_expireK_self (s : Store) (k : String) (t : Int) :
    lookupK (expireK s k t) k = (lookupK s k).map (fun p => (p.1, t)) := by
  induction s with
  | nil => simp [expireK, lookupK]
  | cons e rest ih =>
    obtain ⟨k', v', t'⟩ := e
    by_cases h : k = k'
    · simp [expireK, if_pos h, lookupK]
    · simp [expireK, if_neg h, lookupK, if_neg h, ih]

theorem lookupK_removeK_self (s : Store) (k : String) :
    lookupK (removeK s k) k = none := by
  induction s with
  | nil => simp [removeK, lookupK]
  | cons e rest ih =>
    obtain ⟨k', v', t'⟩ := e
    by_cases h : k = k'
    · simp [removeK, if_pos h, ih]
    · simp [removeK, if_neg h, lookupK, if_neg h, ih]

theorem lookupK_mem (s : Store) (k v : String) (t : Int)
    (h : lookupK s k = some (v, t)) : (k, v, t) ∈ s := by
  induction s with
  | nil => simp [lookupK] at h
  | cons e rest ih =>
    obtain ⟨k', v', t'⟩ := e
    by_cases hk : k = k'
    · subst hk
      simp [lookupK] at h
      simp [h]
    · simp [lookupK, if_neg hk] at h
      exact List.mem_cons_of_mem _ (ih h)

theorem ttlK_eq (s : Store) (k v : String) (t : Int)
    (h : lookupK s k = some (v, t)) : ttlK s k = t := by
  simp [ttlK, h]

/-! ### Branch equations and trace facts for the rate limiter -/

theorem handleRateLimit_absent (s : Store) (ip : String) (q : Int)
    (h : lookupK s ip = none) :
    handleRateLimit s noFaults ip q =
      (RLRes.ok q (30 * timeMinute), setK s ip (goItoa q) (30 * 60 * timeSecond),
       [Ev.rlGet, Ev.rlSet]) := by
  simp [handleRateLimit, noFaults, h]

theorem handleRateLimit_pos (s : Store) (ip v : String) (t n q : Int)
    (hv : lookupK s ip = some (v, t)) (hn : goAtoi v = some n) (h0 : 0 < n) :
    handleRateLimit s noFaults ip q =
      (RLRes.ok (n - 1) (30 * timeMinute),
       expireK (decrK s ip) ip (30 * 60 * timeSecond),
       [Ev.rlGet, Ev.rlDecr, Ev.rlExpire]) := by
  simp [handleRateLimit, noFaults, hv, hn]
  omega

theorem handleRateLimit_exhausted (s : Store) (ip v : String) (t n q : Int)
    (hv : lookupK s ip = some (v, t)) (hn : goAtoi v = some n) (hle : n ≤ 0) :
    handleRateLimit s noFaults ip q =
      (RLRes.err RLErrKind.rateLimited t, s, [Ev.rlGet, Ev.rlTTL]) := by
  simp [handleRateLimit, noFaults, hv, hn, hle, ttlK_eq s ip v t hv]

theorem handleRateLimit_trace_sublist (s : Store) (f : Faults) (ip : String) (q : Int) :
    List.Sublist (handleRateLimit s f ip q).2.2
      [Ev.rlGet, Ev.rlSet, Ev.rlTTL, Ev.rlDecr, Ev.rlExpire] := by
  unfold handleRateLimit
  repeat' split
  all_goals dsimp only
  all_goals decide

theorem writeMapping_not_mem_rl (s : Store) (f : Faults) (ip : String) (q : Int) :
    Ev.writeMapping ∉ (handleRateLimit s f ip q).2.2 := by
  have h := handleRateLimit_trace_sublist s f ip q
  intro hmem
  have := h.mem hmem
  simp at this

/-! ### Branch equations for the full handler -/

theorem shortenURL_invalidURL_eq (isValidURL removeDomainError : String → Bool)
    (enforceHTTP : String → String) (domain apiQuota uuidStr ip : String)
    (f : Faults) (s : Store) (body : request)
    (hval : isValidURL body.URL = false) :
    ShortenURL isValidURL removeDomainError enforceHTTP domain apiQuota uuidStr ip f s body =
      (Outcome.invalidURL, s, [Ev.validateURL]) := by
  simp [ShortenURL, hval]

theorem shortenURL_domainError_eq (isValidURL removeDomainError : String → Bool)
    (enforceHTTP : String → String) (domain apiQuota uuidStr ip : String)
    (f : Faults) (s : Store) (body : request)
    (hval : isValidURL body.URL = true) (hdom : removeDomainError body.URL = false) :
    ShortenURL isValidURL removeDomainError enforceHTTP domain apiQuota uuidStr ip f s body =
      (Outcome.domainError, s, [Ev.validateURL, Ev.domainCheck]) := by
  simp [ShortenURL, hval, hdom]

theorem shortenURL_inUse_eq (isValidURL removeDomainError : String → Bool)
    (enforceHTTP : String → String) (domain apiQuota uuidStr ip : String)
    (f : Faults) (s : Store) (body : request)
    (hval : isValidURL body.URL = true) (hdom : removeDomainError body.URL = true)
    (hne : (if f.getId then "" else lookupVal s
      (if body.CustomShort = "" then String.mk (uuidStr.data.take 6)
       else body.CustomShort)) ≠ "") :
    ShortenURL isValidURL removeDomainError enforceHTTP domain apiQuota uuidStr ip f s body =
      (Outcome.identifierInUse, s,
       if body.CustomShort = ""
       then [Ev.validateURL, Ev.domainCheck, Ev.enforceHTTP, Ev.genId, Ev.getId]
       else [Ev.validateURL, Ev.domainCheck, Ev.enforceHTTP, Ev.getId]) := by
  simp only [ShortenURL, hval, hdom]
  simp [hne]

theorem shortenURL_rlErr_eq (isValidURL removeDomainError : String → Bool)
    (enforceHTTP : String → String) (domain apiQuota uuidStr ip : String)
    (f : Faults) (s : Store) (body : request) (rlOut : RLRes × Store × List Ev)
    (k : RLErrKind) (exp : Int)
    (hval : isValidURL body.URL = true) (hdom : removeDomainError body.URL = true)
    (hempty : (if f.getId then "" else lookupVal s
      (if body.CustomShort = "" then String.mk (uuidStr.data.take 6)
       else body.CustomShort)) = "")
    (hrl2 : handleRateLimit s f ip ((goAtoi apiQuota).getD 100) = rlOut)
    (hrl : rlOut.1 = RLRes.err k exp) :
    ShortenURL isValidURL removeDomainError enforceHTTP domain apiQuota uuidStr ip f s body =
      (Outcome.rateLimitErr k (exp / timeSecond / timeMinute), rlOut.2.1,
       (if body.CustomShort = ""
        then [Ev.validateURL, Ev.domainCheck, Ev.enforceHTTP, Ev.genId, Ev.getId]
        else [Ev.validateURL, Ev.domainCheck, Ev.enforceHTTP, Ev.getId]) ++ rlOut.2.2) := by
  simp only [ShortenURL, hval, hdom, hempty, hrl2, hrl]
  simp

theorem shortenURL_ok_eq (isValidURL removeDomainError : String → Bool)
    (enforceHTTP : String → String) (domain apiQuota uuidStr ip : String)
    (f : Faults) (s : Store) (body : request) (rlOut : RLRes × Store × List Ev)
    (rem exp : Int)
    (hval : isValidURL body.URL = true) (hdom : removeDomainError body.URL = true)
    (hempty : (if f.getId then "" else lookupVal s
      (if body.CustomShort = "" then String.mk (uuidStr.data.take 6)
       else body.CustomShort)) = "")
    (hrl2 : handleRateLimit s f ip ((goAtoi apiQuota).getD 100) = rlOut)
    (hrl : rlOut.1 = RLRes.ok rem exp) (hfs : f.finalSet = false) :
    ShortenURL isValidURL removeDomainError enforceHTTP domain apiQuota uuidStr ip f s body =
      (Outcome.ok ⟨enforceHTTP body.URL,
         domain ++ "/" ++ (if body.CustomShort = "" then String.mk (uuidStr.data.take 6)
                           else body.CustomShort),
         (if body.Expiry = 0 then 24 else body.Expiry), rem,
         exp / timeNanosecond / timeMinute⟩,
       setK rlOut.2.1
         (if body.CustomShort = "" then String.mk (uuidStr.data.take 6)
          else body.CustomShort)
         (enforceHTTP body.URL)
         ((if body.Expiry = 0 then 24 else body.Expiry) * 3600 * timeSecond),
       (if body.CustomShort = ""
        then [Ev.validateURL, Ev.domainCheck, Ev.enforceHTTP, Ev.genId, Ev.getId]
        else [Ev.validateURL, Ev.domainCheck, Ev.enforceHTTP, Ev.getId]) ++
         rlOut.2.2 ++ [Ev.writeMapping]) := by
  simp only [ShortenURL, hval, hdom, hempty, hrl2, hrl, hfs]
  simp

theorem shortenURL_writeError_eq (isValidURL removeDomainError : String → Bool)
    (enforceHTTP : String → String) (domain apiQuota uuidStr ip : String)
    (f : Faults) (s : Store) (body : request) (rlOut : RLRes × Store × List Ev)
    (rem exp : Int)
    (hval : isValidURL body.URL = true) (hdom : removeDomainError body.URL = true)
    (hempty : (if f.getId then "" else lookupVal s
      (if body.CustomShort = "" then String.mk (uuidStr.data.take 6)
       else body.CustomShort)) = "")
    (hrl2 : handleRateLimit s f ip ((goAtoi apiQuota).getD 100) = rlOut)
    (hrl : rlOut.1 = RLRes.ok rem exp) (hfs : f.finalSet = true) :
    ShortenURL isValidURL removeDomainError enforceHTTP domain apiQuota uuidStr ip f s body =
      (Outcome.writeError, rlOut.2.1,
       (if body.CustomShort = ""
        then [Ev.validateURL, Ev.domainCheck, Ev.enforceHTTP, Ev.genId, Ev.getId]
        else [Ev.validateURL, Ev.domainCheck, Ev.enforceHTTP, Ev.getId]) ++
         rlOut.2.2 ++ [Ev.writeMapping]) := by
  simp only [ShortenURL, hval, hdom, hempty, hrl2, hrl, hfs]
  simp

/-! ### Claim theorems -/

/-- Claim C1: every trace of `ShortenURL` is a sublist of the canonical
operation order — URL syntactic validation, then the forbidden-domain check
and secure-scheme normalization, then the uniqueness lookup of the resolved
identifier, then the rate-limit operations, and only then the mapping write.
In particular the identifier-uniqueness lookup (`Ev.getId`) precedes every
rate-limit store operation in every run. -/
theorem shortenURL_operation_order (isValidURL removeDomainError : String → Bool)
    (enforceHTTP : String → String) (domain apiQuota uuidStr ip : String)
    (f : Faults) (s : Store) (body : request) :
    List.Sublist
      (ShortenURL isValidURL removeDomainError enforceHTTP domain apiQuota uuidStr ip
        f s body).2.2
      canonicalOrder := by
  by_cases hval : isValidURL body.URL = false
  · rw [shortenURL_invalidURL_eq _ _ _ _ _ _ _ _ _ _ hval]
    dsimp only
    decide
  · have hval' : isValidURL body.URL = true := by
      revert hval
      cases isValidURL body.URL <;> simp
    by_cases hdom : removeDomainError body.URL = false
    · rw [shortenURL_domainError_eq _ _ _ _ _ _ _ _ _ _ hval' hdom]
      dsimp only
      decide
    · have hdom' : removeDomainError body.URL = true := by
        revert hdom
        cases removeDomainError body.URL <;> simp
      have h1 : List.Sublist
          (if body.CustomShort = ""
           then [Ev.validateURL, Ev.domainCheck, Ev.enforceHTTP, Ev.genId, Ev.getId]
           else [Ev.validateURL, Ev.domainCheck, Ev.enforceHTTP, Ev.getId])
          [Ev.validateURL, Ev.domainCheck, Ev.enforceHTTP, Ev.genId, Ev.getId] := by
        by_cases hcs : body.CustomShort = ""
        · rw [if_pos hcs]
        · rw [if_neg hcs]
          decide
      have h2 := handleRateLimit_trace_sublist s f ip ((goAtoi apiQuota).getD 100)
      by_cases hne : (if f.getId then "" else lookupVal s
          (if body.CustomShort = "" then String.mk (uuidStr.data.take 6)
           else body.CustomShort)) = ""
      · cases hres : (handleRateLimit s f ip ((goAtoi apiQuota).getD 100)).1 with
        | err k exp =>
          rw [shortenURL_rlErr_eq _ _ _ _ _ _ _ _ _ _ _ k exp hval' hdom' hne rfl hres]
          exact (h1.append h2).trans (by decide)
        | ok rem exp =>
          by_cases hfs : f.finalSet = true
          · rw [shortenURL_writeError_eq _ _ _ _ _ _ _ _ _ _ _ rem exp hval' hdom' hne
              rfl hres hfs]
            exact ((h1.append h2).append (List.Sublist.refl [Ev.writeMapping])).trans
              (by decide)
          · have hfs' : f.finalSet = false := by
              revert hfs
              cases f.finalSet <;> simp
            rw [shortenURL_ok_eq _ _ _ _ _ _ _ _ _ _ _ rem exp hval' hdom' hne
              rfl hres hfs']
            exact ((h1.append h2).append (List.Sublist.refl [Ev.writeMapping])).trans
              (by decide)
      · rw [shortenURL_inUse_eq _ _ _ _ _ _ _ _ _ _ hval' hdom' hne]
        exact h1.trans (by decide)

/-- Claim C2: on its success branches, for a positive quota `q`,
`handleRateLimit` (a) creates an absent counter with value `q` and
time-to-live 30 minutes and returns the full quota `q` (not `q - 1`) with
reset duration 30 minutes, and (b) on a counter holding `n > 0` decrements it
to `n - 1`, refreshes its time-to-live to 30 minutes, and returns `n - 1`
with reset duration 30 minutes. -/
theorem handleRateLimit_success_behaviour (s : Store) (ip : String) (q : Int)
    (hq : 0 < q) :
    ((lookupK s ip = none →
       (handleRateLimit s noFaults ip q).1 = RLRes.ok q (30 * timeMinute) ∧
       lookupK (handleRateLimit s noFaults ip q).2.1 ip =
         some (goItoa q, 30 * 60 * timeSecond)) ∧
     (∀ v t n, lookupK s ip = some (v, t) → goAtoi v = some n → 0 < n →
       (handleRateLimit s noFaults ip q).1 = RLRes.ok (n - 1) (30 * timeMinute) ∧
       lookupK (handleRateLimit s noFaults ip q).2.1 ip =
         some (goItoa (n - 1), 30 * 60 * timeSecond))) := by
  constructor
  · intro h
    rw [handleRateLimit_absent s ip q h]
    exact ⟨rfl, lookupK_setK_self s ip _ _⟩
  · intro v t n hv hn h0
    rw [handleRateLimit_pos s ip v t n q hv hn h0]
    refine ⟨rfl, ?_⟩
    rw [lookupK_expireK_self, lookupK_decrK_self, hv]
    simp [hn]

/-- Witness for C2 at quota 100: a fresh counter is created with the full
quota, and a counter at 41 is decremented to 40, both with 30-minute ttl. -/
theorem handleRateLimit_success_behaviour_witness :
    ((handleRateLimit [] noFaults "203.0.113.7" 100).1 =
       RLRes.ok 100 (30 * timeMinute) ∧
     lookupK (handleRateLimit [] noFaults "203.0.113.7" 100).2.1 "203.0.113.7" =
       some (goItoa 100, 30 * 60 * timeSecond)) ∧
    ((handleRateLimit [("203.0.113.7", "41", 5)] noFaults "203.0.113.7" 100).1 =
       RLRes.ok (41 - 1) (30 * timeMinute) ∧
     lookupK (handleRateLimit [("203.0.113.7", "41", 5)] noFaults
         "203.0.113.7" 100).2.1 "203.0.113.7" =
       some (goItoa (41 - 1), 30 * 60 * timeSecond)) :=
  ⟨(handleRateLimit_success_behaviour [] "203.0.113.7" 100 (by decide)).1 rfl,
   (handleRateLimit_success_behaviour [("203.0.113.7", "41", 5)] "203.0.113.7" 100
     (by decide)).2 "41" 5 41 rfl (by decide) (by decide)⟩

/-- Claim C3: when the counter of `ip` holds a value `n ≤ 0`, the rate limiter
mutates nothing (the store is returned unchanged and only GET and TTL are
traced), fails rate-limited carrying the counter key's remaining time-to-live
`t`, and a registration hitting this branch aborts: `ShortenURL` returns the
rate-limited 503 outcome, leaves the store exactly as it was, and its trace
contains no mapping write. -/
theorem rateLimitExceeded_readonly_abort (s : Store) (ip v : String) (t n : Int)
    (hv : lookupK s ip = some (v, t)) (hn : goAtoi v = some n) (hle : n ≤ 0) :
    (∀ q, handleRateLimit s noFaults ip q =
       (RLRes.err RLErrKind.rateLimited t, s, [Ev.rlGet, Ev.rlTTL])) ∧
    (∀ (isValidURL removeDomainError : String → Bool)
       (enforceHTTP : String → String) (domain apiQuota uuidStr : String)
       (body : request),
       isValidURL body.URL = true → removeDomainError body.URL = true →
       lookupK s (if body.CustomShort = "" then String.mk (uuidStr.data.take 6)
                  else body.CustomShort) = none →
       (ShortenURL isValidURL removeDomainError enforceHTTP domain apiQuota uuidStr
          ip noFaults s body).1 =
         Outcome.rateLimitErr RLErrKind.rateLimited (t / timeSecond / timeMinute) ∧
       (ShortenURL isValidURL removeDomainError enforceHTTP domain apiQuota uuidStr
          ip noFaults s body).2.1 = s ∧
       Ev.writeMapping ∉
         (ShortenURL isValidURL removeDomainError enforceHTTP domain apiQuota uuidStr
           ip noFaults s body).2.2) := by
  have hrlq : ∀ q : Int, handleRateLimit s noFaults ip q =
      (RLRes.err RLErrKind.rateLimited t, s, [Ev.rlGet, Ev.rlTTL]) := by
    intro q
    exact handleRateLimit_exhausted s ip v t n q hv hn hle
  refine ⟨hrlq, ?_⟩
  intro isValidURL removeDomainError enforceHTTP domain apiQuota uuidStr body
    hval hdom hid
  have hempty : (if noFaults.getId then "" else lookupVal s
      (if body.CustomShort = "" then String.mk (uuidStr.data.take 6)
       else body.CustomShort)) = "" := by
    simp [noFaults, lookupVal, hid]
  rw [shortenURL_rlErr_eq isValidURL removeDomainError enforceHTTP domain apiQuota
    uuidStr ip noFaults s body _ RLErrKind.rateLimited t hval hdom hempty
    (hrlq ((goAtoi apiQuota).getD 100)) rfl]
  refine ⟨rfl, rfl, ?_⟩
  by_cases hcs : body.CustomShort = "" <;> simp [hcs]

/-- Witness for C3: with a counter at 0 holding 9 minutes of ttl, the limiter
fails read-only and the registration aborts with no write. -/
theorem rateLimitExceeded_readonly_abort_witness :
    (∀ q, handleRateLimit [("198.51.100.2", "0", 9 * timeMinute)] noFaults
        "198.51.100.2" q =
      (RLRes.err RLErrKind.rateLimited (9 * timeMinute),
       [("198.51.100.2", "0", 9 * timeMinute)], [Ev.rlGet, Ev.rlTTL])) ∧
    ((ShortenURL (fun _ => true) (fun _ => true) (fun u => u) "sh.rt" "100"
        "0123456789abcdef" "198.51.100.2" noFaults
        [("198.51.100.2", "0", 9 * timeMinute)] ⟨"https://example.com", "", 0⟩).1 =
      Outcome.rateLimitErr RLErrKind.rateLimited
        ((9 * timeMinute) / timeSecond / timeMinute) ∧
     (ShortenURL (fun _ => true) (fun _ => true) (fun u => u) "sh.rt" "100"
        "0123456789abcdef" "198.51.100.2" noFaults
        [("198.51.100.2", "0", 9 * timeMinute)] ⟨"https://example.com", "", 0⟩).2.1 =
      [("198.51.100.2", "0", 9 * timeMinute)] ∧
     Ev.writeMapping ∉
       (ShortenURL (fun _ => true) (fun _ => true) (fun u => u) "sh.rt" "100"
         "0123456789abcdef" "198.51.100.2" noFaults
         [("198.51.100.2", "0", 9 * timeMinute)] ⟨"https://example.com", "", 0⟩).2.2) := by
  have h := rateLimitExceeded_readonly_abort
    [("198.51.100.2", "0", 9 * timeMinute)] "198.51.100.2" "0" (9 * timeMinute) 0
    (by decide) (by decide) (by decide)
  exact ⟨h.1, h.2 (fun _ => true) (fun _ => true) (fun u => u) "sh.rt" "100"
    "0123456789abcdef" ⟨"https://example.com", "", 0⟩ rfl rfl (by decide)⟩

/-- Counterexample to claim C4: in the concrete quota-100 scenario the first
call returns `quotaRemaining = 100` and the second `99` as claimed, but the
101st call does not fail — it succeeds (HTTP 200) with `quotaRemaining = 0`,
because the first request creates the counter at the full quota without
consuming from it. -/
theorem quota_101st_call_succeeds :
    quotaCall 1 = Outcome.ok ⟨"https://example.com", "sh.rt/c1", 24, 100, 30⟩ ∧
    quotaCall 2 = Outcome.ok ⟨"https://example.com", "sh.rt/c2", 24, 99, 30⟩ ∧
    quotaCall 101 = Outcome.ok ⟨"https://example.com", "sh.rt/c101", 24, 0, 30⟩ ∧
    statusOf (quotaCall 101) = 200 := by
  refine ⟨by decide, by decide, ?_, ?_⟩
  · set_option maxRecDepth 4000 in decide
  · set_option maxRecDepth 4000 in decide

/-- Claim C4 as amended: with quota 100, the first call returns 100, the
second 99, the 101st still succeeds with 0 remaining, and the 102nd call
fails rate-limited; at that failure the rate limiter's internal reset
duration is 30 minutes — positive and at most 30 minutes — but the
`rate_limit_reset` field of the 503 response, computed as
`exp / time.Second / time.Minute`, is 0. -/
theorem quota_scenario_behaviour :
    quotaCall 1 = Outcome.ok ⟨"https://example.com", "sh.rt/c1", 24, 100, 30⟩ ∧
    quotaCall 2 = Outcome.ok ⟨"https://example.com", "sh.rt/c2", 24, 99, 30⟩ ∧
    quotaCall 101 = Outcome.ok ⟨"https://example.com", "sh.rt/c101", 24, 0, 30⟩ ∧
    quotaCall 102 = Outcome.rateLimitErr RLErrKind.rateLimited 0 ∧
    (handleRateLimit (quotaStoreAfter 101) noFaults "192.0.2.1" 100).1 =
      RLRes.err RLErrKind.rateLimited (30 * timeMinute) ∧
    0 < 30 * timeMinute ∧
    (30 * timeMinute) / timeSecond / timeMinute = 0 := by
  refine ⟨by decide, by decide, ?_, ?_, ?_, by decide, by decide⟩
  · set_option maxRecDepth 4000 in decide
  · set_option maxRecDepth 4000 in decide
  · set_option maxRecDepth 4000 in decide

theorem handleRateLimit_getFault (s : Store) (f : Faults) (ip : String) (q : Int)
    (hf : f.rlGet = true) :
    handleRateLimit s f ip q = (RLRes.err RLErrKind.storeFault 0, s, [Ev.rlGet]) := by
  simp [handleRateLimit, hf]

/-- Claim C5: whenever the resolved identifier (custom or generated) is
already present in a well-formed store (all stored values non-empty, as this
program only ever writes https-prefixed URLs and decimal counters) and the
request passes validation, `ShortenURL` fails with `identifierInUse`
(HTTP 403), leaves the store unchanged, and never reaches the mapping
write. -/
theorem register_identifierInUse (isValidURL removeDomainError : String → Bool)
    (enforceHTTP : String → String) (domain apiQuota uuidStr ip : String)
    (f : Faults) (s : Store) (body : request) (v : String) (t : Int)
    (hwf : WellFormed s)
    (hval : isValidURL body.URL = true) (hdom : removeDomainError body.URL = true)
    (hf : f.getId = false)
    (hpresent : lookupK s
      (if body.CustomShort = "" then String.mk (uuidStr.data.take 6)
       else body.CustomShort) = some (v, t)) :
    (ShortenURL isValidURL removeDomainError enforceHTTP domain apiQuota uuidStr ip
       f s body).1 = Outcome.identifierInUse ∧
    statusOf (ShortenURL isValidURL removeDomainError enforceHTTP domain apiQuota
       uuidStr ip f s body).1 = 403 ∧
    (ShortenURL isValidURL removeDomainError enforceHTTP domain apiQuota uuidStr ip
       f s body).2.1 = s ∧
    Ev.writeMapping ∉
      (ShortenURL isValidURL removeDomainError enforceHTTP domain apiQuota uuidStr ip
        f s body).2.2 := by
  have hvne : v ≠ "" := hwf _ v t (lookupK_mem _ _ _ _ hpresent)
  have hne : (if f.getId then "" else lookupVal s
      (if body.CustomShort = "" then String.mk (uuidStr.data.take 6)
       else body.CustomShort)) ≠ "" := by
    simp [hf, lookupVal, hpresent, hvne]
  rw [shortenURL_inUse_eq _ _ _ _ _ _ _ _ _ _ hval hdom hne]
  refine ⟨rfl, rfl, rfl, ?_⟩
  by_cases hcs : body.CustomShort = "" <;> simp [hcs]

/-- Witness for C5: a custom identifier that already maps to a stored URL is
rejected with 403 and nothing is written. -/
theorem register_identifierInUse_witness :
    (ShortenURL (fun _ => true) (fun _ => true) (fun u => u) "sh.rt" "100" "unused"
       "192.0.2.9" noFaults [("abc", "https://old.example", 5)]
       ⟨"https://new.example", "abc", 0⟩).1 = Outcome.identifierInUse ∧
    statusOf (ShortenURL (fun _ => true) (fun _ => true) (fun u => u) "sh.rt" "100"
       "unused" "192.0.2.9" noFaults [("abc", "https://old.example", 5)]
       ⟨"https://new.example", "abc", 0⟩).1 = 403 ∧
    (ShortenURL (fun _ => true) (fun _ => true) (fun u => u) "sh.rt" "100" "unused"
       "192.0.2.9" noFaults [("abc", "https://old.example", 5)]
       ⟨"https://new.example", "abc", 0⟩).2.1 = [("abc", "https://old.example", 5)] ∧
    Ev.writeMapping ∉
      (ShortenURL (fun _ => true) (fun _ => true) (fun u => u) "sh.rt" "100" "unused"
        "192.0.2.9" noFaults [("abc", "https://old.example", 5)]
        ⟨"https://new.example", "abc", 0⟩).2.2 :=
  register_identifierInUse (fun _ => true) (fun _ => true) (fun u => u) "sh.rt" "100"
    "unused" "192.0.2.9" noFaults [("abc", "https://old.example", 5)]
    ⟨"https://new.example", "abc", 0⟩ "https://old.example" 5
    (by
      intro k v t hm
      simp only [List.mem_singleton] at hm
      rw [show v = "https://old.example" by
        have := congrArg (fun p => p.2.1) hm
        simpa using this]
      decide)
    rfl rfl rfl (by decide)

/-- Counterexample to claim C6: when the uniqueness-check GET fails with a
communication error (`getIdFault`) while the identifier `abc` is present in
the store, the handler proceeds as though the identifier were available —
the request succeeds and the existing mapping is overwritten — because the
source discards that call's error (`val, _ := r.Get(...)`). -/
theorem uniquenessCheck_fault_overwrites :
    (ShortenURL (fun _ => true) (fun _ => true) (fun u => u) "sh.rt" "100" "unused"
       "192.0.2.9" getIdFault [("abc", "https://old.example", 5)]
       ⟨"https://new.example", "abc", 0⟩).1 =
      Outcome.ok ⟨"https://new.example", "sh.rt/abc", 24, 100, 30⟩ ∧
    lookupK (ShortenURL (fun _ => true) (fun _ => true) (fun u => u) "sh.rt" "100"
       "unused" "192.0.2.9" getIdFault [("abc", "https://old.example", 5)]
       ⟨"https://new.example", "abc", 0⟩).2.1 "abc" =
      some ("https://new.example", 24 * 3600 * timeSecond) :=
  ⟨by decide, by decide⟩

/-- Claim C6 as amended: a communication failure of any of the rate limiter's
five store calls — GET, SET, DECR, EXPIRE, TTL — makes `handleRateLimit`
return its store-fault error, and whenever the rate-limit check reports a
store fault, `ShortenURL` surfaces it as a 503 server fault with no mapping
write (the store is left exactly as the rate limiter left it); failures of
the final write are surfaced as a 500 server fault; but the communication
failure of the uniqueness-check lookup is discarded — the request never
fails with `identifierInUse` when that GET errors, even if the identifier
is taken. -/
theorem storeFault_surfacing (isValidURL removeDomainError : String → Bool)
    (enforceHTTP : String → String) (domain apiQuota uuidStr ip : String)
    (s : Store) (body : request)
    (hval : isValidURL body.URL = true) (hdom : removeDomainError body.URL = true) :
    (∀ (f : Faults) (q : Int),
      (f.rlGet = true →
        (handleRateLimit s f ip q).1 = RLRes.err RLErrKind.storeFault 0) ∧
      (f.rlGet = false → f.rlSet = true → lookupK s ip = none →
        (handleRateLimit s f ip q).1 = RLRes.err RLErrKind.storeFault 0) ∧
      (∀ (v : String) (t n : Int), f.rlGet = false → f.rlTTL = true →
        lookupK s ip = some (v, t) → goAtoi v = some n → n ≤ 0 →
        (handleRateLimit s f ip q).1 = RLRes.err RLErrKind.storeFault 0) ∧
      (∀ (v : String) (t n : Int), f.rlGet = false → f.rlDecr = true →
        lookupK s ip = some (v, t) → goAtoi v = some n → 0 < n →
        (handleRateLimit s f ip q).1 = RLRes.err RLErrKind.storeFault 0) ∧
      (∀ (v : String) (t n : Int), f.rlGet = false → f.rlDecr = false →
        f.rlExpire = true →
        lookupK s ip = some (v, t) → goAtoi v = some n → 0 < n →
        (handleRateLimit s f ip q).1 = RLRes.err RLErrKind.storeFault 0)) ∧
    (∀ (f : Faults) (exp : Int), f.getId = false →
      lookupVal s (if body.CustomShort = "" then String.mk (uuidStr.data.take 6)
                   else body.CustomShort) = "" →
      (handleRateLimit s f ip ((goAtoi apiQuota).getD 100)).1 =
        RLRes.err RLErrKind.storeFault exp →
      (ShortenURL isValidURL removeDomainError enforceHTTP domain apiQuota uuidStr ip
         f s body).1 =
        Outcome.rateLimitErr RLErrKind.storeFault (exp / timeSecond / timeMinute) ∧
      statusOf (ShortenURL isValidURL removeDomainError enforceHTTP domain apiQuota
         uuidStr ip f s body).1 = 503 ∧
      (ShortenURL isValidURL removeDomainError enforceHTTP domain apiQuota uuidStr ip
         f s body).2.1 = (handleRateLimit s f ip ((goAtoi apiQuota).getD 100)).2.1 ∧
      Ev.writeMapping ∉
        (ShortenURL isValidURL removeDomainError enforceHTTP domain apiQuota uuidStr
          ip f s body).2.2) ∧
    (∀ rem exp : Int,
      lookupVal s (if body.CustomShort = "" then String.mk (uuidStr.data.take 6)
                   else body.CustomShort) = "" →
      (handleRateLimit s finalSetFault ip ((goAtoi apiQuota).getD 100)).1 =
        RLRes.ok rem exp →
      (ShortenURL isValidURL removeDomainError enforceHTTP domain apiQuota uuidStr ip
         finalSetFault s body).1 = Outcome.writeError ∧
      statusOf (ShortenURL isValidURL removeDomainError enforceHTTP domain apiQuota
         uuidStr ip finalSetFault s body).1 = 500) ∧
    (∀ f : Faults, f.getId = true →
      (ShortenURL isValidURL removeDomainError enforceHTTP domain apiQuota uuidStr ip
         f s body).1 ≠ Outcome.identifierInUse) := by
  refine ⟨?_, ?_, ?_, ?_⟩
  · intro f q
    refine ⟨?_, ?_, ?_, ?_, ?_⟩
    · intro hg
      rw [handleRateLimit_getFault s f ip q hg]
    · intro hg hset hl
      simp [handleRateLimit, hg, hset, hl]
    · intro v t n hg httl hl hn hle
      simp [handleRateLimit, hg, httl, hl, hn, hle]
    · intro v t n hg hdecr hl hn hpos
      have hn0 : ¬ n ≤ 0 := by omega
      simp [handleRateLimit, hg, hdecr, hl, hn, hn0]
    · intro v t n hg hdecr hexp hl hn hpos
      have hn0 : ¬ n ≤ 0 := by omega
      simp [handleRateLimit, hg, hdecr, hexp, hl, hn, hn0]
  · intro f exp hg hid hfault
    have hempty : (if f.getId then "" else lookupVal s
        (if body.CustomShort = "" then String.mk (uuidStr.data.take 6)
         else body.CustomShort)) = "" := by
      simp [hg, hid]
    rw [shortenURL_rlErr_eq _ _ _ _ _ _ _ _ _ _ _ RLErrKind.storeFault exp
      hval hdom hempty rfl hfault]
    refine ⟨rfl, rfl, rfl, ?_⟩
    intro hmem
    rcases List.mem_append.mp hmem with hmem | hmem
    · revert hmem
      by_cases hcs : body.CustomShort = "" <;> simp [hcs]
    · exact writeMapping_not_mem_rl s f ip ((goAtoi apiQuota).getD 100) hmem
  · intro rem exp hid hrl
    have hempty : (if finalSetFault.getId then "" else lookupVal s
        (if body.CustomShort = "" then String.mk (uuidStr.data.take 6)
         else body.CustomShort)) = "" := by
      simp [finalSetFault, hid]
    rw [shortenURL_writeError_eq _ _ _ _ _ _ _ _ _ _ _ rem exp
      hval hdom hempty rfl hrl rfl]
    exact ⟨rfl, rfl⟩
  · intro f hg
    have hempty : (if f.getId then "" else lookupVal s
        (if body.CustomShort = "" then String.mk (uuidStr.data.take 6)
         else body.CustomShort)) = "" := by
      simp [hg]
    cases hres : (handleRateLimit s f ip ((goAtoi apiQuota).getD 100)).1 with
    | err k exp =>
      rw [shortenURL_rlErr_eq _ _ _ _ _ _ _ _ _ _ _ k exp hval hdom hempty rfl hres]
      simp
    | ok rem exp =>
      by_cases hfs : f.finalSet = true
      · rw [shortenURL_writeError_eq _ _ _ _ _ _ _ _ _ _ _ rem exp hval hdom hempty
          rfl hres hfs]
        simp
      · have hfs' : f.finalSet = false := by
          revert hfs
          cases f.finalSet <;> simp
        rw [shortenURL_ok_eq _ _ _ _ _ _ _ _ _ _ _ rem exp hval hdom hempty
          rfl hres hfs']
        simp

/-- Witness for the amended C6: with a counter at 7 for the client, a GET
fault and a DECR fault of the rate limiter both yield its store-fault error;
the DECR fault is surfaced by the handler as 503 with no mapping write; a
final-write fault yields 500; a uniqueness-check fault never yields
`identifierInUse`. -/
theorem storeFault_surfacing_witness :
    ((handleRateLimit [("abc", "https://old.example", 5), ("192.0.2.9", "7", 9)]
        rlGetFault "192.0.2.9" 100).1 = RLRes.err RLErrKind.storeFault 0) ∧
    ((handleRateLimit [("abc", "https://old.example", 5), ("192.0.2.9", "7", 9)]
        (⟨false, false, false, true, false, false, false⟩ : Faults)
        "192.0.2.9" 100).1 = RLRes.err RLErrKind.storeFault 0) ∧
    ((ShortenURL (fun _ => true) (fun _ => true) (fun u => u) "sh.rt" "100" "unused"
       "192.0.2.9" (⟨false, false, false, true, false, false, false⟩ : Faults)
       [("abc", "https://old.example", 5), ("192.0.2.9", "7", 9)]
       ⟨"https://new.example", "xyz", 0⟩).1 =
        Outcome.rateLimitErr RLErrKind.storeFault ((0 : Int) / timeSecond / timeMinute) ∧
     statusOf (ShortenURL (fun _ => true) (fun _ => true) (fun u => u) "sh.rt" "100"
       "unused" "192.0.2.9" (⟨false, false, false, true, false, false, false⟩ : Faults)
       [("abc", "https://old.example", 5), ("192.0.2.9", "7", 9)]
       ⟨"https://new.example", "xyz", 0⟩).1 = 503 ∧
     (ShortenURL (fun _ => true) (fun _ => true) (fun u => u) "sh.rt" "100" "unused"
       "192.0.2.9" (⟨false, false, false, true, false, false, false⟩ : Faults)
       [("abc", "https://old.example", 5), ("192.0.2.9", "7", 9)]
       ⟨"https://new.example", "xyz", 0⟩).2.1 =
       (handleRateLimit [("abc", "https://old.example", 5), ("192.0.2.9", "7", 9)]
         (⟨false, false, false, true, false, false, false⟩ : Faults)
         "192.0.2.9" ((goAtoi "100").getD 100)).2.1 ∧
     Ev.writeMapping ∉
       (ShortenURL (fun _ => true) (fun _ => true) (fun u => u) "sh.rt" "100" "unused"
         "192.0.2.9" (⟨false, false, false, true, false, false, false⟩ : Faults)
         [("abc", "https://old.example", 5), ("192.0.2.9", "7", 9)]
         ⟨"https://new.example", "xyz", 0⟩).2.2) ∧
    ((ShortenURL (fun _ => true) (fun _ => true) (fun u => u) "sh.rt" "100" "unused"
       "192.0.2.9" finalSetFault
       [("abc", "https://old.example", 5), ("192.0.2.9", "7", 9)]
       ⟨"https://new.example", "xyz", 0⟩).1 = Outcome.writeError ∧
     statusOf (ShortenURL (fun _ => true) (fun _ => true) (fun u => u) "sh.rt" "100"
       "unused" "192.0.2.9" finalSetFault
       [("abc", "https://old.example", 5), ("192.0.2.9", "7", 9)]
       ⟨"https://new.example", "xyz", 0⟩).1 = 500) ∧
    ((ShortenURL (fun _ => true) (fun _ => true) (fun u => u) "sh.rt" "100" "unused"
       "192.0.2.9" getIdFault
       [("abc", "https://old.example", 5), ("192.0.2.9", "7", 9)]
       ⟨"https://new.example", "xyz", 0⟩).1 ≠ Outcome.identifierInUse) := by
  have h := storeFault_surfacing (fun _ => true) (fun _ => true) (fun u => u) "sh.rt"
    "100" "unused" "192.0.2.9"
    [("abc", "https://old.example", 5), ("192.0.2.9", "7", 9)]
    ⟨"https://new.example", "xyz", 0⟩ rfl rfl
  refine ⟨(h.1 rlGetFault 100).1 rfl,
          (h.1 (⟨false, false, false, true, false, false, false⟩ : Faults) 100).2.2.2.1
            "7" 9 7 rfl rfl (by decide) (by decide) (by decide),
          h.2.1 (⟨false, false, false, true, false, false, false⟩ : Faults) 0 rfl
            (by decide) (by decide),
          h.2.2.1 (7 - 1) (30 * timeMinute) (by decide) (by decide),
          h.2.2.2 getIdFault rfl⟩

/-- Counterexample to claim C7: a valid, non-denylisted URL submitted with an
empty custom identifier does not always succeed — with the client's counter
exhausted, registration fails rate-limited (HTTP 503), so success requires
the rate-limit gate (and fault-free store calls, and an unused generated
identifier) in addition to URL validity. -/
theorem freshURL_register_rateLimited :
    (ShortenURL (fun _ => true) (fun _ => true) (fun u => u) "sh.rt" "100"
       "0123456789abcdef" "198.51.100.7" noFaults
       [("198.51.100.7", "0", 9 * timeMinute)] ⟨"https://example.com", "", 0⟩).1 =
      Outcome.rateLimitErr RLErrKind.rateLimited 0 ∧
    statusOf (ShortenURL (fun _ => true) (fun _ => true) (fun u => u) "sh.rt" "100"
       "0123456789abcdef" "198.51.100.7" noFaults
       [("198.51.100.7", "0", 9 * timeMinute)] ⟨"https://example.com", "", 0⟩).1 =
      503 :=
  ⟨by decide, by decide⟩

/-- Claim C7 as amended: for a valid, non-denylisted URL with empty custom
identifier, provided the generated identifier (the 6-character prefix of the
uuid string) is not already present in the store, the rate limiter grants the
request, and no store call faults, registration succeeds (HTTP 200) and the
identifier embedded in the response after the domain prefix is a 6-character
string that was not previously present in the store. -/
theorem freshURL_register_success (isValidURL removeDomainError : String → Bool)
    (enforceHTTP : String → String) (domain apiQuota uuidStr ip : String)
    (s : Store) (body : request) (rem exp : Int)
    (hval : isValidURL body.URL = true) (hdom : removeDomainError body.URL = true)
    (hcs : body.CustomShort = "") (hlen : 6 ≤ uuidStr.length)
    (hfree : lookupK s (String.mk (uuidStr.data.take 6)) = none)
    (hrl : (handleRateLimit s noFaults ip ((goAtoi apiQuota).getD 100)).1 =
      RLRes.ok rem exp) :
    (ShortenURL isValidURL removeDomainError enforceHTTP domain apiQuota uuidStr ip
       noFaults s body).1 =
      Outcome.ok ⟨enforceHTTP body.URL,
        domain ++ "/" ++ String.mk (uuidStr.data.take 6),
        (if body.Expiry = 0 then 24 else body.Expiry), rem,
        exp / timeNanosecond / timeMinute⟩ ∧
    (String.mk (uuidStr.data.take 6)).length = 6 ∧
    lookupK s (String.mk (uuidStr.data.take 6)) = none ∧
    statusOf (ShortenURL isValidURL removeDomainError enforceHTTP domain apiQuota
       uuidStr ip noFaults s body).1 = 200 := by
  have hempty : (if noFaults.getId then "" else lookupVal s
      (if body.CustomShort = "" then String.mk (uuidStr.data.take 6)
       else body.CustomShort)) = "" := by
    simp [noFaults, hcs, lookupVal, hfree]
  rw [shortenURL_ok_eq _ _ _ _ _ _ _ _ _ _ _ rem exp hval hdom hempty rfl hrl rfl]
  have hlen6 : (String.mk (uuidStr.data.take 6)).length = 6 := by
    have : uuidStr.data.length = uuidStr.length := rfl
    simp only [String.length, List.length_take]
    omega
  exact ⟨by simp [hcs], hlen6, hfree, by simp [hcs, statusOf]⟩

/-- Witness for the amended C7: a fresh store, quota 100, uuid string
`0123456789abcdef`; registration succeeds with identifier `012345`. -/
theorem freshURL_register_success_witness :
    (ShortenURL (fun _ => true) (fun _ => true) (fun u => u) "sh.rt" "100"
       "0123456789abcdef" "198.51.100.8" noFaults [] ⟨"https://example.com", "", 0⟩).1 =
      Outcome.ok ⟨"https://example.com", "sh.rt" ++ "/" ++ String.mk
        ("0123456789abcdef".data.take 6), (if (0 : Int) = 0 then 24 else 0), 100,
        (30 * timeMinute) / timeNanosecond / timeMinute⟩ ∧
    (String.mk ("0123456789abcdef".data.take 6)).length = 6 ∧
    lookupK [] (String.mk ("0123456789abcdef".data.take 6)) = none ∧
    statusOf (ShortenURL (fun _ => true) (fun _ => true) (fun u => u) "sh.rt" "100"
       "0123456789abcdef" "198.51.100.8" noFaults []
       ⟨"https://example.com", "", 0⟩).1 = 200 :=
  freshURL_register_success (fun _ => true) (fun _ => true) (fun u => u) "sh.rt"
    "100" "0123456789abcdef" "198.51.100.8" [] ⟨"https://example.com", "", 0⟩
    100 (30 * timeMinute) rfl rfl rfl (by decide) rfl (by decide)

/-- Claim C8: every registration that reaches the write step (the trace
contains the write event) and whose write does not fault stores the mapping
under the resolved identifier with value the https-enforced URL and
time-to-live `expiryHours * 3600` seconds, where `expiryHours` is the
caller-supplied expiry or 24 when that was zero. -/
theorem write_uses_resolved_expiry (isValidURL removeDomainError : String → Bool)
    (enforceHTTP : String → String) (domain apiQuota uuidStr ip : String)
    (f : Faults) (s : Store) (body : request)
    (hreach : Ev.writeMapping ∈
      (ShortenURL isValidURL removeDomainError enforceHTTP domain apiQuota uuidStr ip
        f s body).2.2)
    (hfs : f.finalSet = false) :
    lookupK (ShortenURL isValidURL removeDomainError enforceHTTP domain apiQuota
        uuidStr ip f s body).2.1
      (if body.CustomShort = "" then String.mk (uuidStr.data.take 6)
       else body.CustomShort) =
      some (enforceHTTP body.URL,
        (if body.Expiry = 0 then 24 else body.Expiry) * 3600 * timeSecond) ∧
    (body.Expiry = 0 → (if body.Expiry = 0 then 24 else body.Expiry) = 24) := by
  by_cases hval : isValidURL body.URL = false
  · rw [shortenURL_invalidURL_eq _ _ _ _ _ _ _ _ _ _ hval] at hreach
    simp at hreach
  · have hval' : isValidURL body.URL = true := by
      revert hval
      cases isValidURL body.URL <;> simp
    by_cases hdom : removeDomainError body.URL = false
    · rw [shortenURL_domainError_eq _ _ _ _ _ _ _ _ _ _ hval' hdom] at hreach
      simp at hreach
    · have hdom' : removeDomainError body.URL = true := by
        revert hdom
        cases removeDomainError body.URL <;> simp
      by_cases hne : (if f.getId then "" else lookupVal s
          (if body.CustomShort = "" then String.mk (uuidStr.data.take 6)
           else body.CustomShort)) = ""
      · cases hres : (handleRateLimit s f ip ((goAtoi apiQuota).getD 100)).1 with
        | err k exp =>
          rw [shortenURL_rlErr_eq _ _ _ _ _ _ _ _ _ _ _ k exp hval' hdom' hne
            rfl hres] at hreach
          exfalso
          rcases List.mem_append.mp hreach with hmem | hmem
          · revert hmem
            by_cases hcs : body.CustomShort = "" <;> simp [hcs]
          · exact writeMapping_not_mem_rl s f ip ((goAtoi apiQuota).getD 100) hmem
        | ok rem exp =>
          rw [shortenURL_ok_eq _ _ _ _ _ _ _ _ _ _ _ rem exp hval' hdom' hne
            rfl hres hfs]
          refine ⟨?_, fun h => by rw [if_pos h]⟩
          exact lookupK_setK_self _ _ _ _
      · rw [shortenURL_inUse_eq _ _ _ _ _ _ _ _ _ _ hval' hdom' hne] at hreach
        exfalso
        revert hreach
        by_cases hcs : body.CustomShort = "" <;> simp [hcs]

/-- Witness for C8: a registration with zero expiry stores the mapping with a
24-hour (86400-second) time-to-live. -/
theorem write_uses_resolved_expiry_witness :
    lookupK (ShortenURL (fun _ => true) (fun _ => true) (fun u => u) "sh.rt" "100"
        "unused" "198.51.100.8" noFaults [] ⟨"https://example.com", "xyz", 0⟩).2.1
      (if ("xyz" : String) = "" then String.mk ("unused".data.take 6) else "xyz") =
      some ("https://example.com",
        (if (0 : Int) = 0 then 24 else 0) * 3600 * timeSecond) ∧
    ((0 : Int) = 0 → (if (0 : Int) = 0 then (24 : Int) else 0) = 24) :=
  write_uses_resolved_expiry (fun _ => true) (fun _ => true) (fun u => u) "sh.rt"
    "100" "unused" "198.51.100.8" noFaults [] ⟨"https://example.com", "xyz", 0⟩
    (by decide) rfl

theorem counterInv_step (ip : String) (quota : Int) (s : Store) (f : Faults)
    (hq : 0 < quota) (hinv : counterInv ip quota s) :
    counterInv ip quota (handleRateLimit s f ip quota).2.1 := by
  unfold handleRateLimit
  by_cases hg : f.rlGet = true
  · rw [if_pos hg]
    exact hinv
  · rw [if_neg hg]
    cases hl : lookupK s ip with
    | none =>
      dsimp only
      by_cases hset : f.rlSet = true
      · rw [if_pos hset]
        exact hinv
      · rw [if_neg hset]
        dsimp only
        intro v t hvt
        rw [lookupK_setK_self] at hvt
        simp only [Option.some.injEq, Prod.mk.injEq] at hvt
        exact ⟨quota, hvt.1.symm, le_of_lt hq, le_refl quota⟩
    | some p =>
      obtain ⟨v₀, t₀⟩ := p
      dsimp only
      obtain ⟨n, hv₀, hn0, hnq⟩ := hinv v₀ t₀ hl
      subst hv₀
      rw [goAtoi_goItoa]
      dsimp only
      by_cases hle : n ≤ 0
      · rw [if_pos hle]
        by_cases httl : f.rlTTL = true
        · rw [if_pos httl]
          exact hinv
        · rw [if_neg httl]
          exact hinv
      · rw [if_neg hle]
        by_cases hdecr : f.rlDecr = true
        · rw [if_pos hdecr]
          exact hinv
        · rw [if_neg hdecr]
          by_cases hexp : f.rlExpire = true
          · rw [if_pos hexp]
            dsimp only
            intro v t hvt
            rw [lookupK_decrK_self, hl] at hvt
            simp only [Option.map_some', Option.some.injEq, Prod.mk.injEq,
              goAtoi_goItoa, Option.getD_some] at hvt
            exact ⟨n - 1, hvt.1.symm, by omega, by omega⟩
          · rw [if_neg hexp]
            dsimp only
            intro v t hvt
            rw [lookupK_expireK_self, lookupK_decrK_self, hl] at hvt
            simp only [Option.map_some', Option.some.injEq, Prod.mk.injEq,
              goAtoi_goItoa, Option.getD_some] at hvt
            exact ⟨n - 1, hvt.1.symm, by omega, by omega⟩

/-- Claim C9: starting from an absent counter and a fixed positive quota,
after any sequence of rate-limit checks (with any fault pattern) and window
expiries, the stored counter of the client, whenever present, is a decimal
integer `n` with `0 ≤ n ≤ quota`: it is created at the quota, decremented
only when strictly positive, and never driven below zero or above the
quota. -/
theorem rateLimit_counter_invariant (ip : String) (quota : Int) (s₀ : Store)
    (acts : List RLAct) (hq : 0 < quota) (h0 : lookupK s₀ ip = none) :
    counterInv ip quota (runRL ip quota s₀ acts) := by
  have haux : ∀ (as : List RLAct) (s : Store), counterInv ip quota s →
      counterInv ip quota (runRL ip quota s as) := by
    intro as
    induction as with
    | nil =>
      intro s h
      exact h
    | cons a rest ih =>
      intro s h
      cases a with
      | call f => exact ih _ (counterInv_step ip quota s f hq h)
      | windowExpire =>
        refine ih _ ?_
        intro v t hvt
        rw [lookupK_removeK_self] at hvt
        cases hvt
  refine haux acts s₀ ?_
  intro v t hvt
  rw [h0] at hvt
  cases hvt

/-- Witness for C9: five calls (including one fault and one window expiry)
from an empty store at quota 2 keep the counter within bounds. -/
theorem rateLimit_counter_invariant_witness :
    counterInv "198.51.100.9" 2 (runRL "198.51.100.9" 2 []
      [RLAct.call noFaults, RLAct.call noFaults, RLAct.call rlGetFault,
       RLAct.windowExpire, RLAct.call noFaults]) :=
  rateLimit_counter_invariant "198.51.100.9" 2 []
    [RLAct.call noFaults, RLAct.call noFaults, RLAct.call rlGetFault,
     RLAct.windowExpire, RLAct.call noFaults] (by decide) rfl

/-- Claim C10: mappings and rate-limit counters share one undifferentiated
keyspace — a request whose custom identifier equals a key currently holding a
rate-limit counter (a decimal value, hence non-empty) fails with
`identifierInUse` (HTTP 403), because the uniqueness check only asks whether
the stored value is non-empty. -/
theorem counter_key_blocks_identifier (isValidURL removeDomainError : String → Bool)
    (enforceHTTP : String → String) (domain apiQuota uuidStr ip : String)
    (f : Faults) (s : Store) (body : request) (n t : Int)
    (hval : isValidURL body.URL = true) (hdom : removeDomainError body.URL = true)
    (hf : f.getId = false) (hcs : body.CustomShort ≠ "")
    (hcounter : lookupK s body.CustomShort = some (goItoa n, t)) :
    (ShortenURL isValidURL removeDomainError enforceHTTP domain apiQuota uuidStr ip
       f s body).1 = Outcome.identifierInUse ∧
    statusOf (ShortenURL isValidURL removeDomainError enforceHTTP domain apiQuota
       uuidStr ip f s body).1 = 403 ∧
    (ShortenURL isValidURL removeDomainError enforceHTTP domain apiQuota uuidStr ip
       f s body).2.1 = s := by
  have hne : (if f.getId then "" else lookupVal s
      (if body.CustomShort = "" then String.mk (uuidStr.data.take 6)
       else body.CustomShort)) ≠ "" := by
    simp [hf, hcs, lookupVal, hcounter, goItoa_ne_empty]
  rw [shortenURL_inUse_eq _ _ _ _ _ _ _ _ _ _ hval hdom hne]
  exact ⟨rfl, rfl, rfl⟩

/-- Witness for C10: the counter that `handleRateLimit` itself created for
client `203.0.113.77` blocks a later registration that picks that address as
its custom identifier. -/
theorem counter_key_blocks_identifier_witness :
    (ShortenURL (fun _ => true) (fun _ => true) (fun u => u) "sh.rt" "100" "unused"
       "198.51.100.10" noFaults
       (handleRateLimit [] noFaults "203.0.113.77" 100).2.1
       ⟨"https://example.com", "203.0.113.77", 0⟩).1 = Outcome.identifierInUse ∧
    statusOf (ShortenURL (fun _ => true) (fun _ => true) (fun u => u) "sh.rt" "100"
       "unused" "198.51.100.10" noFaults
       (handleRateLimit [] noFaults "203.0.113.77" 100).2.1
       ⟨"https://example.com", "203.0.113.77", 0⟩).1 = 403 ∧
    (ShortenURL (fun _ => true) (fun _ => true) (fun u => u) "sh.rt" "100" "unused"
       "198.51.100.10" noFaults
       (handleRateLimit [] noFaults "203.0.113.77" 100).2.1
       ⟨"https://example.com", "203.0.113.77", 0⟩).2.1 =
      (handleRateLimit [] noFaults "203.0.113.77" 100).2.1 :=
  counter_key_blocks_identifier (fun _ => true) (fun _ => true) (fun u => u) "sh.rt"
    "100" "unused" "198.51.100.10" noFaults
    (handleRateLimit [] noFaults "203.0.113.77" 100).2.1
    ⟨"https://example.com", "203.0.113.77", 0⟩ 100 (30 * 60 * timeSecond)
    rfl rfl rfl (by decide) (by decide)

end TinyGo
